import Mathlib

/-!
Shallow embedding of the `arcade-rs` game core in Lean 4, for checking the
natural-language specification against the code.

Numeric model: the Rust code computes with `f64`; we embed those computations
over `ℚ` (exact rational arithmetic), keeping every formula literally as it is
written in the source.  The only transcendental computation (the sine-bullet
trajectory) is embedded over `ℝ` with `Real.sin`.

Source files embedded here:
  * `src/views/bullets.rs`  — `CannonType`, `spawn_bullets`, the three bullet
    kinds and their `update`/`rect` methods;
  * `src/views/game.rs`     — `Player` confinement, `Asteroid.update`,
    `Explosion.update`, `ExplosionFactory.at_center`, and the per-frame
    pipeline of `GameView::update` (entity updates, collision pass, bullet
    spawning) together with the bullet list traversed by `GameView::render`;
  * `src/views/shared.rs`   — `Background::update`;
  * `src/phi/events.rs`     — the `struct_events!`-generated `Events::pump`.

The repository's `src/phi/data.rs` and `src/phi/gfx.rs` are not present in
the source tree (only their callers are); the `Rectangle` operations and
`AnimatedSprite` they provide are modelled from the specification where
needed, and each such definition is marked `Modelled from the spec:`.
-/

/-! ## Geometry: `Rectangle` (from `phi/data.rs`, modelled from the spec) -/

/-- `Rectangle` from `phi/data.rs` (file not in `src/`): an axis-aligned
rectangle with position `(x, y)` and size `(w, h)`, as consumed throughout
`views/*.rs`. -/
structure Rectangle where
  x : ℚ
  y : ℚ
  w : ℚ
  h : ℚ
  deriving DecidableEq, Repr

/-- Modelled from the spec: `Rectangle::overlaps(other) -> bool` from
`phi/data.rs` (file not in `src/`) — the axis-aligned rectangle overlap test
used by the collision pass. -/
def Rectangle.overlaps (a b : Rectangle) : Bool :=
  a.x < b.x + b.w && b.x < a.x + a.w && a.y < b.y + b.h && b.y < a.y + a.h

/-- Modelled from the spec: `Rectangle::center() -> (f64, f64)` from
`phi/data.rs` (file not in `src/`). -/
def Rectangle.center (r : Rectangle) : ℚ × ℚ :=
  (r.x + r.w / 2, r.y + r.h / 2)

/-- Modelled from the spec: `Rectangle::with_size(w, h)` from `phi/data.rs`
(file not in `src/`): a rectangle of the given size at the origin. -/
def Rectangle.with_size (w h : ℚ) : Rectangle :=
  { x := 0, y := 0, w := w, h := h }

/-- Modelled from the spec: `Rectangle::center_at(point)` from `phi/data.rs`
(file not in `src/`): the same-sized rectangle whose center is the given
point. -/
def Rectangle.center_at (r : Rectangle) (c : ℚ × ℚ) : Rectangle :=
  { r with x := c.1 - r.w / 2, y := c.2 - r.h / 2 }

/-- Modelled from the spec: `Rectangle::move_inside(parent) -> Option<Rectangle>`
from `phi/data.rs` (file not in `src/`): clamps the rectangle into `parent`,
failing (returning `none`) exactly when the rectangle cannot fit inside it. -/
def Rectangle.move_inside (r parent : Rectangle) : Option Rectangle :=
  if r.w ≤ parent.w ∧ r.h ≤ parent.h then
    some { r with
      x := max parent.x (min r.x (parent.x + parent.w - r.w)),
      y := max parent.y (min r.y (parent.y + parent.h - r.h)) }
  else
    none

/-- Modelled from the spec: `MaybeAlive` from `phi/data.rs` (file not in
`src/`): a value paired with a liveness flag, used only during the single-pass
collision resolution. -/
structure MaybeAlive (α : Type) where
  alive : Bool
  value : α
  deriving DecidableEq, Repr

/-- Modelled from the spec: `MaybeAlive::as_option`, the filter used to drop
dead values after the collision pass (`filter_map(MaybeAlive::as_option)`). -/
def MaybeAlive.as_option {α : Type} (m : MaybeAlive α) : Option α :=
  if m.alive then some m.value else none

/-! ## Constants (from `views/bullets.rs` and `views/game.rs`) -/

/-- `BULLET_SPEED` from `views/bullets.rs`. -/
def BULLET_SPEED : ℚ := 240

/-- `BULLET_W` from `views/bullets.rs`. -/
def BULLET_W : ℚ := 8

/-- `BULLET_H` from `views/bullets.rs`. -/
def BULLET_H : ℚ := 4

/-- `PLAYER_W` from `views/game.rs`. -/
def PLAYER_W : ℚ := 43

/-- `PLAYER_H` from `views/game.rs`. -/
def PLAYER_H : ℚ := 39

/-- `ASTEROID_SIDE` from `views/game.rs`. -/
def ASTEROID_SIDE : ℚ := 96

/-- `EXPLOSION_SIDE` from `views/game.rs`. -/
def EXPLOSION_SIDE : ℚ := 96

/-- `EXPLOSIONS_TOTAL` from `views/game.rs`. -/
def EXPLOSIONS_TOTAL : ℕ := 17

/-- `EXPLOSION_FPS` from `views/game.rs`. -/
def EXPLOSION_FPS : ℚ := 16

/-- `EXPLOSION_DURATION = 1.0 / EXPLOSION_FPS * EXPLOSIONS_TOTAL` from
`views/game.rs` (exact in `f64`, hence embedded exactly). -/
def EXPLOSION_DURATION : ℚ := 1 / EXPLOSION_FPS * (EXPLOSIONS_TOTAL : ℚ)

/-! ## `RectBullet::update` (from `views/bullets.rs`) -/

/-- `RectBullet` from `views/bullets.rs`: a bullet that stores its bounding
rectangle directly. -/
structure RectBullet where
  rect : Rectangle
  deriving DecidableEq, Repr

/-- `RectBullet::update` from `views/bullets.rs`: advance
`rect.x += BULLET_SPEED * dt`; return `none` when `rect.x > w` (screen width),
otherwise the translated bullet. -/
def RectBullet.update (w : ℚ) (b : RectBullet) (dt : ℚ) : Option RectBullet :=
  let moved : RectBullet := { rect := { b.rect with x := b.rect.x + BULLET_SPEED * dt } }
  if moved.rect.x > w then none else some moved

/-! ## `Explosion` (from `views/game.rs`) -/

/-- `Explosion` from `views/game.rs`: rectangle plus accumulated alive time
(the animated-sprite timing state is not observed by any claim). -/
structure Explosion where
  rect : Rectangle
  alive_since : ℚ
  deriving DecidableEq, Repr

/-- `Explosion::update` from `views/game.rs`: accumulate `dt` into
`alive_since`; return `none` once `alive_since >= EXPLOSION_DURATION`. -/
def Explosion.update (dt : ℚ) (e : Explosion) : Option Explosion :=
  let e' : Explosion := { e with alive_since := e.alive_since + dt }
  if e'.alive_since ≥ EXPLOSION_DURATION then none else some e'

/-- `ExplosionFactory::at_center` from `views/game.rs`: a fresh explosion whose
square `EXPLOSION_SIDE` rectangle is centered at the given point. -/
def ExplosionFactory.at_center (c : ℚ × ℚ) : Explosion :=
  { rect := (Rectangle.with_size EXPLOSION_SIDE EXPLOSION_SIDE).center_at c,
    alive_since := 0 }

/-! ## `Background::update` (from `views/shared.rs`) -/

/-- `Background::update` from `views/shared.rs`, as a function of the sprite's
native width: `pos += vel * elapsed; if pos > size.0 { pos -= size.0 }`. -/
def Background.update (spriteW pos vel elapsed : ℚ) : ℚ :=
  let pos' := pos + vel * elapsed
  if pos' > spriteW then pos' - spriteW else pos'

/-! ## Player confinement (from `views/game.rs`, `Player::update`) -/

/-- The movable region built in `Player::update` (`views/game.rs`): full
window height, left 70% of the window width. -/
def playerMovableRegion (winW winH : ℚ) : Rectangle :=
  { x := 0, y := 0, w := winW * (7 / 10), h := winH }

/-- The confinement step of `Player::update` (`views/game.rs`): clamp the
player's rectangle (always `PLAYER_W × PLAYER_H`) into the movable region;
the Rust code `unwrap`s the result, aborting when it is `none`. -/
def playerConfine (winW winH x y : ℚ) : Option Rectangle :=
  Rectangle.move_inside { x := x, y := y, w := PLAYER_W, h := PLAYER_H }
    (playerMovableRegion winW winH)

/-! ## Cannon types and `spawn_bullets` (from `views/bullets.rs`) -/

/-- `CannonType` from `views/bullets.rs`. -/
inductive CannonType where
  | RectBullet
  | SineBullet (amplitude angular_vel : ℚ)
  | DivergentBullet (a b : ℚ)
  deriving DecidableEq, Repr

/-- The closed set of bullet variants behind `Box<dyn Bullet>`
(`views/bullets.rs`): each constructor carries exactly the fields of the
corresponding Rust struct. -/
inductive BulletVariant where
  | rectB (rect : Rectangle)
  | sineB (pos_x origin_y amplitude angular_vel total_time : ℚ)
  | divergentB (pos_x origin_y a b total_time : ℚ)
  deriving DecidableEq, Repr

/-- The x coordinate at which a freshly spawned bullet sits (the `x` stored by
its constructor in `spawn_bullets`). -/
def BulletVariant.spawnX : BulletVariant → ℚ
  | .rectB r => r.x
  | .sineB px _ _ _ _ => px
  | .divergentB px _ _ _ _ => px

/-- The mount height stored by a freshly spawned bullet (`rect.y` for a
rectangular bullet, `origin_y` for the others). -/
def BulletVariant.spawnY : BulletVariant → ℚ
  | .rectB r => r.y
  | .sineB _ oy _ _ _ => oy
  | .divergentB _ oy _ _ _ => oy

/-- `spawn_bullets` from `views/bullets.rs`: one bullet per cannon mount
(`cannon1_y`, `cannon2_y`), both at `cannons_x`; the Divergent pair carries
`-a` on the first mount and `a` on the second. -/
def spawn_bullets (cannon : CannonType) (cannons_x cannon1_y cannon2_y : ℚ) :
    List BulletVariant :=
  match cannon with
  | .RectBullet =>
      [ .rectB { x := cannons_x, y := cannon1_y, w := BULLET_W, h := BULLET_H },
        .rectB { x := cannons_x, y := cannon2_y, w := BULLET_W, h := BULLET_H } ]
  | .SineBullet amplitude angular_vel =>
      [ .sineB cannons_x cannon1_y amplitude angular_vel 0,
        .sineB cannons_x cannon2_y amplitude angular_vel 0 ]
  | .DivergentBullet a b =>
      [ .divergentB cannons_x cannon1_y (-a) b 0,
        .divergentB cannons_x cannon2_y a b 0 ]

/-- The state of `Player` observed by `Player::spawn_bullets`
(`views/game.rs`): its rectangle and its current cannon. -/
structure Player where
  rect : Rectangle
  cannon : CannonType
  deriving DecidableEq, Repr

/-- `Player::spawn_bullets` from `views/game.rs`: mounts at
`x + 30` horizontally and `y + 6` / `y + PLAYER_H - 10` vertically.
(Named `playerSpawnBullets` because inside a `Player` namespace the call to
the free function `spawn_bullets` would resolve to the method itself.) -/
def playerSpawnBullets (p : Player) : List BulletVariant :=
  spawn_bullets p.cannon (p.rect.x + 30) (p.rect.y + 6) (p.rect.y + PLAYER_H - 10)

/-! ## `Asteroid` (from `views/game.rs`) -/

/-- `Asteroid` from `views/game.rs`: rectangle and horizontal velocity (the
animated-sprite timing state is not observed by any claim). -/
structure Asteroid where
  rect : Rectangle
  vel : ℚ
  deriving DecidableEq, Repr

/-- `Asteroid::update` from `views/game.rs`: move left by `dt * vel`; removed
once `rect.x <= -ASTEROID_SIDE`. -/
def Asteroid.update (dt : ℚ) (a : Asteroid) : Option Asteroid :=
  let r := { a.rect with x := a.rect.x - dt * a.vel }
  if r.x ≤ -ASTEROID_SIDE then none else some { a with rect := r }

/-! ## The collision pass of `GameView::update` (from `views/game.rs`)

The Rust collision pass manipulates bullets only through the `dyn Bullet`
interface (`rect()`), so the embedding is parametric in the bullet type `α`
together with its `rect` accessor. -/

/-- The mutable state threaded through the asteroid `filter_map` of the
collision pass: surviving asteroids (in order), the `transition_bullets`
vector, the explosion list being pushed to, the number of explosion sound
cues played, and the `player_alive` flag. -/
structure CollisionState (α : Type) where
  asteroids : List Asteroid
  bullets : List (MaybeAlive α)
  explosions : List Explosion
  sounds : ℕ
  playerAlive : Bool

/-- The body of the asteroid `filter_map` in `GameView::update`
(`views/game.rs`): test this asteroid against every transition bullet
(marking each overlapping bullet dead), then against the player; a destroyed
asteroid is dropped, pushing one explosion centered on its rectangle and
playing one explosion sound. -/
def collisionStep {α : Type} (rectOf : α → Rectangle) (playerRect : Rectangle)
    (st : CollisionState α) (ast : Asteroid) : CollisionState α :=
  let bullets' := st.bullets.map fun b =>
    if ast.rect.overlaps (rectOf b.value) then { b with alive := false } else b
  let hitByBullet := st.bullets.any fun b => ast.rect.overlaps (rectOf b.value)
  let hitsPlayer := ast.rect.overlaps playerRect
  let astAlive := !hitByBullet && !hitsPlayer
  { asteroids := st.asteroids ++ if astAlive then [ast] else [],
    bullets := bullets',
    explosions := st.explosions ++
      if astAlive then [] else [ExplosionFactory.at_center ast.rect.center],
    sounds := st.sounds + if astAlive then 0 else 1,
    playerAlive := st.playerAlive && !hitsPlayer }

/-- The outcome of the collision pass: the retained asteroid and bullet lists,
the explosion list (existing explosions plus those spawned by the pass), the
number of explosion sound cues, and whether the player survived. -/
structure CollisionOutcome (α : Type) where
  asteroids : List Asteroid
  bullets : List α
  explosions : List Explosion
  sounds : ℕ
  playerAlive : Bool

/-- The collision pass of `GameView::update` (`views/game.rs`, the
`transition_bullets` / asteroid `filter_map` block): wrap every live bullet in
a `MaybeAlive`, run every asteroid through `collisionStep` in order, then drop
the dead bullets with `filter_map(MaybeAlive::as_option)`. -/
def collisionPass {α : Type} (rectOf : α → Rectangle) (playerRect : Rectangle)
    (asteroids : List Asteroid) (bullets : List α)
    (explosions : List Explosion) : CollisionOutcome α :=
  let st := asteroids.foldl (collisionStep rectOf playerRect)
    { asteroids := [],
      bullets := bullets.map fun b => { alive := true, value := b },
      explosions := explosions,
      sounds := 0,
      playerAlive := true }
  { asteroids := st.asteroids,
    bullets := st.bullets.filterMap MaybeAlive.as_option,
    explosions := st.explosions,
    sounds := st.sounds,
    playerAlive := st.playerAlive }

/-! ## `Events::pump` (from `phi/events.rs`, expanded from `struct_events!`
with the key table of `phi/mod.rs`) -/

/-- The recognized keys of the `struct_events!` invocation in `phi/mod.rs`. -/
inductive Key where
  | key_escape | key_up | key_down | key_left | key_right
  | key_space | key_return | key_1 | key_2 | key_3
  deriving DecidableEq, Repr

/-- The platform events `Events::pump` matches on: key-down / key-up with an
optional recognized keycode (`none` stands for an unmapped or absent
keycode), the quit event, a window-resize event, and anything else. -/
inductive SdlEvent where
  | keyDown (keycode : Option Key)
  | keyUp (keycode : Option Key)
  | quitEvent
  | windowResized (w h : Int)
  | otherEvent
  deriving DecidableEq, Repr

/-- `ImmediateEvents` from `phi/events.rs`: the per-poll transient state — an
edge value per key (`some true` = just pressed, `some false` = just released,
`none` = unchanged), the quit flag, and the optional resize pair. -/
structure ImmediateEvents where
  keyNow : Key → Option Bool
  quit : Bool
  resize : Option (ℕ × ℕ)

/-- `ImmediateEvents::new` from `phi/events.rs`. -/
def ImmediateEvents.new : ImmediateEvents :=
  { keyNow := fun _ => none, quit := false, resize := none }

/-- `Events` from `phi/events.rs`: the transient `now` snapshot plus the
persistent per-key level flags. -/
structure Events where
  now : ImmediateEvents
  level : Key → Bool

/-- One iteration of the event loop in `Events::pump` (`phi/events.rs`).
The window-resize arm of the source `match` begins with
`panic!("Decide which of these two lines to use!")`, so processing a resize
event aborts; the abort is embedded as `Except.error` carrying the panic
message.  `drawable` is the renderer's current output size, which the
(unreachable) line after the panic would store into `now.resize`. -/
def processEvent (_drawable : ℕ × ℕ) (s : Events) :
    SdlEvent → Except String Events
  | .keyDown (some k) =>
      .ok { s with
        now := { s.now with
          keyNow := fun k' =>
            if k' = k then
              if !s.level k then some true else s.now.keyNow k'
            else s.now.keyNow k' },
        level := fun k' => if k' = k then true else s.level k' }
  | .keyDown none => .ok s
  | .keyUp (some k) =>
      .ok { s with
        now := { s.now with
          keyNow := fun k' => if k' = k then some false else s.now.keyNow k' },
        level := fun k' => if k' = k then false else s.level k' }
  | .keyUp none => .ok s
  | .quitEvent => .ok { s with now := { s.now with quit := true } }
  | .windowResized _ _ => .error "Decide which of these two lines to use!"
  | .otherEvent => .ok s

/-- `Events::pump` from `phi/events.rs`: reset `now` to a fresh
`ImmediateEvents`, then process every pending event in order. -/
def Events.pump (drawable : ℕ × ℕ) (s : Events) (events : List SdlEvent) :
    Except String Events :=
  events.foldlM (processEvent drawable) { s with now := ImmediateEvents.new }

/-! ## The per-frame pipeline of `GameView::update` and the bullet list
traversed by `GameView::render` (from `views/game.rs`) -/

/-- The entity collections of `GameView` observed by the per-frame pipeline,
parametric in the bullet type `α` (the Rust pipeline reaches bullets only
through the `dyn Bullet` interface). -/
structure GameState (α : Type) where
  playerRect : Rectangle
  bullets : List α
  asteroids : List Asteroid
  explosions : List Explosion

/-- The entity part of `GameView::update` (`views/game.rs`), in source order:
update bullets / asteroids / explosions by `filter_map`, run the collision
pass, then (if the fire edge is set this frame) append the player's freshly
spawned bullets, then (if the per-frame random draw fires) append one new
asteroid.  `updateB` is the bullet `update` method, `rectOf` its `rect`
method, `spawned` the value of `player.spawn_bullets()`, and `playerRect` the
player's rectangle after `Player::update` ran this frame. -/
def gameFrame {α : Type} (rectOf : α → Rectangle) (updateB : α → Option α)
    (dt : ℚ) (fire : Bool) (spawned : List α) (spawnAst : Bool)
    (newAst : Asteroid) (s : GameState α) : GameState α :=
  let bullets1 := s.bullets.filterMap updateB
  let asteroids1 := s.asteroids.filterMap (Asteroid.update dt)
  let explosions1 := s.explosions.filterMap (Explosion.update dt)
  let out := collisionPass rectOf s.playerRect asteroids1 bullets1 explosions1
  { playerRect := s.playerRect,
    bullets := out.bullets ++ if fire then spawned else [],
    asteroids := out.asteroids ++ if spawnAst then [newAst] else [],
    explosions := out.explosions }

/-- The bullet list traversed by `GameView::render` (`views/game.rs`):
`for bullet in &self.bullets { bullet.render(phi); }` — exactly the state's
bullet list, in order. -/
def renderedBullets {α : Type} (s : GameState α) : List α :=
  s.bullets

/-! ## `SineBullet` trajectory (from `views/bullets.rs`), over `ℝ` -/

/-- `SineBullet` from `views/bullets.rs`, over `ℝ` (its bounding box computes
`f64::sin`). -/
structure SineBullet where
  pos_x : ℝ
  origin_y : ℝ
  amplitude : ℝ
  angular_vel : ℝ
  total_time : ℝ

/-- An axis-aligned rectangle over `ℝ`, the codomain of the real-valued
`rect()` of `SineBullet`. -/
structure RectangleR where
  x : ℝ
  y : ℝ
  w : ℝ
  h : ℝ

/-- `SineBullet::rect` from `views/bullets.rs`:
`dy = amplitude * sin(angular_vel * total_time)`, and the box sits at
`(pos_x, origin_y + dy)` with the fixed bullet size. -/
noncomputable def SineBullet.rect (b : SineBullet) : RectangleR :=
  let dy := b.amplitude * Real.sin (b.angular_vel * b.total_time)
  { x := b.pos_x, y := b.origin_y + dy, w := (8 : ℝ), h := (4 : ℝ) }

/-- The vertical offset of a sine bullet as a function of elapsed time since
spawn (the `dy` of `SineBullet::rect`). -/
noncomputable def sineOffset (amplitude angular_vel t : ℝ) : ℝ :=
  amplitude * Real.sin (angular_vel * t)

/-! ## Theorems -/

/-- **C10** (confirmed): an explosion lives exactly one animation cycle.
`EXPLOSIONS_TOTAL / EXPLOSION_FPS = 17/16` seconds, and `Explosion::update`
returns the successor with `alive_since` increased by `dt` exactly while the
accumulated alive time stays strictly below that duration, returning `none`
on the first update at which it reaches or exceeds it. -/
theorem explosion_update_lifetime_c10 (e : Explosion) (dt : ℚ) :
    EXPLOSION_DURATION = 17 / 16 ∧
    Explosion.update dt e =
      (if e.alive_since + dt < 17 / 16
       then some { e with alive_since := e.alive_since + dt }
       else none) := by
  have hD : EXPLOSION_DURATION = 17 / 16 := by
    norm_num [EXPLOSION_DURATION, EXPLOSION_FPS, EXPLOSIONS_TOTAL]
  refine ⟨hD, ?_⟩
  simp only [Explosion.update, hD]
  by_cases h : (17 : ℚ) / 16 ≤ e.alive_since + dt
  · rw [if_pos h, if_neg (not_lt.mpr h)]
  · rw [if_neg h, if_pos (lt_of_not_le h)]

/-- **C4**, counterexample: at screen width `100`, a bullet whose left edge is
at `90` moves to `95`; its right edge `95 + 8 = 103` has crossed the screen's
right boundary, yet `RectBullet::update` keeps it alive — removal happens
only once the *left* edge crosses the boundary. -/
theorem rect_bullet_right_edge_cex_c4 :
    RectBullet.update 100 { rect := { x := 90, y := 7, w := 8, h := 4 } } (1 / 48) =
      some { rect := { x := 95, y := 7, w := 8, h := 4 } } ∧
    (95 : ℚ) + 8 > 100 := by
  constructor
  · norm_num [RectBullet.update, BULLET_SPEED]
  · norm_num

/-- **C4** (amended): `RectBullet::update` translates purely horizontally by
`BULLET_SPEED * dt` (y, w, h unchanged) and removes the bullet exactly when
its **left** edge (`rect.x`) has crossed the screen's right boundary, i.e.
when the bullet has entirely left the screen. -/
theorem rect_bullet_update_c4 (w dt : ℚ) (b : RectBullet) :
    RectBullet.update w b dt =
      (if w < b.rect.x + BULLET_SPEED * dt then none
       else some { rect := { b.rect with x := b.rect.x + BULLET_SPEED * dt } }) ∧
    (RectBullet.update w b dt = none ↔ w < b.rect.x + BULLET_SPEED * dt) := by
  constructor
  · rfl
  · simp only [RectBullet.update]
    by_cases h : w < b.rect.x + BULLET_SPEED * dt
    · simp [h]
    · simp [h]

/-- **C8**, counterexample: with sprite width `100`, `pos = 0 ∈ [0, 100)`,
`vel = 20` and `dt = 15 ≥ 0` we have `pos + vel*dt = 300 > 100`, but
`Background::update` wraps by a *single* subtraction and yields `200`, which
is not in `[0, 100)`. -/
theorem background_wrap_cex_c8 :
    (0 : ℚ) ≤ 0 ∧ (0 : ℚ) < 100 ∧ (0 : ℚ) ≤ 15 ∧ (100 : ℚ) < 0 + 20 * 15 ∧
    Background.update 100 0 20 15 = 200 ∧ ¬ ((200 : ℚ) < 100) := by
  refine ⟨le_refl _, by norm_num, by norm_num, by norm_num, ?_, by norm_num⟩
  norm_num [Background.update]

/-- **C8** (amended): `Background::update` advances the scroll position by
`vel * dt` and wraps by subtracting the sprite width once, so the result lies
in `[0, W)` for every start `pos ∈ [0, W)` and every `dt ≥ 0` with
`W < pos + vel*dt < 2W` (a single overshoot; the code does not reduce modulo
`W` for larger overshoots). -/
theorem background_update_wrap_c8 (W pos vel dt : ℚ)
    (h0 : 0 ≤ pos) (h1 : pos < W) (h2 : 0 ≤ dt)
    (h3 : W < pos + vel * dt) (h4 : pos + vel * dt < 2 * W) :
    Background.update W pos vel dt = pos + vel * dt - W ∧
    0 ≤ Background.update W pos vel dt ∧ Background.update W pos vel dt < W := by
  have hu : Background.update W pos vel dt = pos + vel * dt - W := by
    simp only [Background.update]
    rw [if_pos h3]
  refine ⟨hu, ?_, ?_⟩ <;> rw [hu] <;> linarith

/-- Witness for **C8**: `W = 100`, `pos = 0`, `vel = 20`, `dt = 6` gives
`pos + vel*dt = 120 ∈ (100, 200)` and the wrapped position `20 ∈ [0, 100)`. -/
theorem background_update_wrap_c8_witness :
    Background.update 100 0 20 6 = 0 + 20 * 6 - 100 ∧
    (0 : ℚ) ≤ Background.update 100 0 20 6 ∧ Background.update 100 0 20 6 < 100 :=
  background_update_wrap_c8 100 0 20 6 (by norm_num) (by norm_num) (by norm_num)
    (by norm_num) (by norm_num)

/-- Helper: whenever the rectangle fits, `move_inside` succeeds and the result
keeps the size and lies inside the parent. -/
lemma move_inside_spec (r parent : Rectangle)
    (hw : r.w ≤ parent.w) (hh : r.h ≤ parent.h) :
    ∃ q, r.move_inside parent = some q ∧ q.w = r.w ∧ q.h = r.h ∧
      parent.x ≤ q.x ∧ q.x + q.w ≤ parent.x + parent.w ∧
      parent.y ≤ q.y ∧ q.y + q.h ≤ parent.y + parent.h := by
  have hsome : r.move_inside parent =
      some { r with
        x := max parent.x (min r.x (parent.x + parent.w - r.w)),
        y := max parent.y (min r.y (parent.y + parent.h - r.h)) } := by
    simp only [Rectangle.move_inside]
    rw [if_pos ⟨hw, hh⟩]
  refine ⟨_, hsome, rfl, rfl, le_max_left _ _, ?_, le_max_left _ _, ?_⟩
  · have h1 : min r.x (parent.x + parent.w - r.w) ≤ parent.x + parent.w - r.w :=
      min_le_right _ _
    have h2 : max parent.x (min r.x (parent.x + parent.w - r.w)) ≤
        parent.x + parent.w - r.w := max_le (by linarith) h1
    show max parent.x (min r.x (parent.x + parent.w - r.w)) + r.w ≤
      parent.x + parent.w
    linarith
  · have h1 : min r.y (parent.y + parent.h - r.h) ≤ parent.y + parent.h - r.h :=
      min_le_right _ _
    have h2 : max parent.y (min r.y (parent.y + parent.h - r.h)) ≤
        parent.y + parent.h - r.h := max_le (by linarith) h1
    show max parent.y (min r.y (parent.y + parent.h - r.h)) + r.h ≤
      parent.y + parent.h
    linarith

/-- **C3**, counterexample: at window size `43 × 39` — equal to the player's
sprite dimensions, hence "≥ the player's sprite dimensions" — the movable
region is only `43 * 7/10 = 30.1` wide, the `43`-wide player cannot fit, and
the confinement computation reports failure (`move_inside` returns `none`,
so the `unwrap` in `Player::update` would abort). -/
theorem player_confine_cex_c3 :
    (43 : ℚ) ≤ 43 ∧ (39 : ℚ) ≤ 39 ∧ playerConfine 43 39 64 0 = none := by
  refine ⟨le_refl _, le_refl _, ?_⟩
  norm_num [playerConfine, Rectangle.move_inside, playerMovableRegion, PLAYER_W, PLAYER_H]

/-- **C3** (amended): the confinement step of `Player::update` clamps the
player's rectangle into the movable region (full window height, left 70% of
the window width, strictly left of the asteroid spawn edge `x = winW`), and
it never reports failure for any window whose *region* fits the sprite, i.e.
whenever `PLAYER_W ≤ winW * 7/10` and `PLAYER_H ≤ winH` (window width at
least `430/7 ≈ 61.43`, not merely `≥ 43`). -/
theorem player_confine_c3 (winW winH x y : ℚ)
    (hw : (43 : ℚ) ≤ winW * (7 / 10)) (hh : (39 : ℚ) ≤ winH) :
    ∃ r, playerConfine winW winH x y = some r ∧
      0 ≤ r.x ∧ r.x + r.w ≤ winW * (7 / 10) ∧
      0 ≤ r.y ∧ r.y + r.h ≤ winH ∧
      r.w = PLAYER_W ∧ r.h = PLAYER_H ∧ r.x + r.w < winW := by
  obtain ⟨q, hq, hqw, hqh, hx1, hx2, hy1, hy2⟩ :=
    move_inside_spec { x := x, y := y, w := PLAYER_W, h := PLAYER_H }
      (playerMovableRegion winW winH)
      (by simpa [PLAYER_W, playerMovableRegion] using hw)
      (by simpa [PLAYER_H, playerMovableRegion] using hh)
  simp only [playerMovableRegion, PLAYER_W, PLAYER_H, zero_add] at hqw hqh hx1 hx2 hy1 hy2
  refine ⟨q, hq, hx1, hx2, hy1, hy2, ?_, ?_, ?_⟩
  · simpa [PLAYER_W] using hqw
  · simpa [PLAYER_H] using hqh
  · linarith

/-- Witness for **C3**: the default `800 × 600` window satisfies the amended
bounds, and confining a player pushed far right (`x = 1000`) succeeds. -/
theorem player_confine_c3_witness :
    (playerConfine 800 600 1000 (-5)).isSome = true := by
  obtain ⟨r, hr, -⟩ := player_confine_c3 800 600 1000 (-5) (by norm_num) (by norm_num)
  rw [hr]
  rfl

/-- **C9** (code bug in the source): a poll whose event queue contains a
window-resize event does *not* complete normally — the resize arm of
`Events::pump` begins with `panic!("Decide which of these two lines to
use!")`, aborting the poll before the (intended, unreachable) line that
stores the renderer's actual drawable size. -/
theorem events_pump_resize_panics_c9 :
    Events.pump (800, 600) { now := ImmediateEvents.new, level := fun _ => false }
      [SdlEvent.windowResized 800 600] =
      Except.error "Decide which of these two lines to use!" := rfl

/-- **C6** (confirmed): a sine bullet's vertical offset is the pure function
`amplitude * sin(angular_vel * elapsed)` of elapsed time since spawn, added
to the fixed origin height; for `amplitude = 10, angular_vel = 15` the offset
is `0` at `t = 0` and `10` at `t = π / (2 * 15)`. -/
theorem sine_bullet_offset_c6 :
    (∀ b : SineBullet,
      b.rect.y = b.origin_y + sineOffset b.amplitude b.angular_vel b.total_time) ∧
    sineOffset 10 15 0 = 0 ∧
    sineOffset 10 15 (Real.pi / (2 * 15)) = 10 := by
  refine ⟨fun b => rfl, ?_, ?_⟩
  · simp [sineOffset]
  · have h : (15 : ℝ) * (Real.pi / (2 * 15)) = Real.pi / 2 := by ring
    rw [sineOffset, h, Real.sin_pi_div_two]
    norm_num

/-- **C5** (confirmed): for every cannon configuration `spawn_bullets` returns
exactly 2 bullets, both at `cannons_x`, one per mount (`cannon1_y`,
`cannon2_y`); the Divergent pair carries `-a` on the first mount and `a` on
the second; and the two mounts produced by `Player::spawn_bullets` sit at
distinct heights (`y + 6` and `y + 29`). -/
theorem spawn_bullets_pair_c5 (cannon : CannonType) (cx y1 y2 : ℚ) :
    (spawn_bullets cannon cx y1 y2).length = 2 ∧
    (∀ b ∈ spawn_bullets cannon cx y1 y2, b.spawnX = cx) ∧
    (spawn_bullets cannon cx y1 y2).map BulletVariant.spawnY = [y1, y2] ∧
    (∀ a b, cannon = CannonType.DivergentBullet a b →
      spawn_bullets cannon cx y1 y2 =
        [BulletVariant.divergentB cx y1 (-a) b 0,
         BulletVariant.divergentB cx y2 a b 0]) ∧
    (∀ p : Player,
      (playerSpawnBullets p).map BulletVariant.spawnY =
        [p.rect.y + 6, p.rect.y + 29] ∧
      p.rect.y + 6 ≠ p.rect.y + 29) := by
  refine ⟨?_, ?_, ?_, ?_, ?_⟩
  · cases cannon <;> rfl
  · intro b hb
    cases cannon <;> simp [spawn_bullets] at hb <;>
      rcases hb with h | h <;> subst h <;> rfl
  · cases cannon <;> rfl
  · intro a b hab
    subst hab
    rfl
  · intro p
    constructor
    · have : p.rect.y + PLAYER_H - 10 = p.rect.y + 29 := by
        rw [PLAYER_H]; ring
      cases hc : p.cannon <;>
        simp [playerSpawnBullets, spawn_bullets, hc, BulletVariant.spawnY, this]
    · intro h
      have := add_left_cancel h
      norm_num at this

/-- Witness for **C5**: the divergent cannon selected by key 3
(`a = 100, b = 1.2`) spawns exactly the mirrored pair. -/
theorem spawn_bullets_pair_c5_witness :
    spawn_bullets (CannonType.DivergentBullet 100 (6 / 5)) 30 6 29 =
      [BulletVariant.divergentB 30 6 (-100) (6 / 5) 0,
       BulletVariant.divergentB 30 29 100 (6 / 5) 0] :=
  (spawn_bullets_pair_c5 (CannonType.DivergentBullet 100 (6 / 5)) 30 6 29).2.2.2.1
    100 (6 / 5) rfl

/-- Helper for **C2**: the event loop of `Events::pump` preserves, for a key
whose level flag is set and for which no key-up event is pending, both the
level flag and the absence of an edge value. -/
lemma pump_loop_held (k : Key) (events : List SdlEvent) :
    ∀ (d : ℕ × ℕ) (s : Events), s.level k = true → s.now.keyNow k = none →
      SdlEvent.keyUp (some k) ∉ events →
      ∀ r, List.foldlM (processEvent d) s events = Except.ok r →
        r.level k = true ∧ r.now.keyNow k = none := by
  induction events with
  | nil =>
      intro d s hl hn _ r hr
      simp only [List.foldlM_nil, Except.pure, pure] at hr
      cases hr
      exact ⟨hl, hn⟩
  | cons e rest ih =>
      intro d s hl hn hmem r hr
      rw [List.foldlM_cons] at hr
      cases he : processEvent d s e with
      | error msg =>
          rw [he] at hr
          exact Except.noConfusion hr
      | ok s' =>
          rw [he] at hr
          have hs' : s'.level k = true ∧ s'.now.keyNow k = none := by
            cases e with
            | keyDown kc =>
                cases kc with
                | none => cases he; exact ⟨hl, hn⟩
                | some k' =>
                    cases he
                    by_cases hk : k = k'
                    · subst hk
                      refine ⟨by simp, ?_⟩
                      simp [hl, hn]
                    · exact ⟨by simp [hk, hl], by simp [hk, hn]⟩
            | keyUp kc =>
                cases kc with
                | none => cases he; exact ⟨hl, hn⟩
                | some k' =>
                    cases he
                    have hk : k ≠ k' := by
                      intro hkk
                      exact hmem (by simp [hkk])
                    exact ⟨by simp [hk, hl], by simp [hk, hn]⟩
            | quitEvent => cases he; exact ⟨hl, hn⟩
            | windowResized w h => cases he
            | otherEvent => cases he; exact ⟨hl, hn⟩
          exact ih d s' hs'.1 hs'.2
            (fun hm => hmem (List.mem_cons_of_mem _ hm)) r hr

/-- **C2** (confirmed): a just-pressed edge (`some true`) for a key can come
out of a poll only when that key's level flag goes false→true within the
poll (it was unset at poll start, or a key-up event in the same poll unset
it); and for a key held across two polls — level already set, no key-up
pending — the second poll leaves the edge `none` (unchanged), even when the
device delivers repeat key-down events. -/
theorem events_pump_edge_c2 (d : ℕ × ℕ) (s : Events) (events : List SdlEvent)
    (k : Key) :
    (s.level k = true → SdlEvent.keyUp (some k) ∉ events →
      ∀ r, Events.pump d s events = Except.ok r → r.now.keyNow k = none) ∧
    (∀ r, Events.pump d s events = Except.ok r → r.now.keyNow k = some true →
      s.level k = false ∨ SdlEvent.keyUp (some k) ∈ events) := by
  constructor
  · intro hl hmem r hr
    exact (pump_loop_held k events d { s with now := ImmediateEvents.new }
      hl rfl hmem r hr).2
  · intro r hr hsome
    by_cases hl : s.level k = true
    · by_cases hmem : SdlEvent.keyUp (some k) ∈ events
      · exact Or.inr hmem
      · exfalso
        have := (pump_loop_held k events d { s with now := ImmediateEvents.new }
          hl rfl hmem r hr).2
        rw [this] at hsome
        cases hsome
    · exact Or.inl (by simpa using hl)

/-- Witness for **C2**: with the space key held (level flag set) and a poll
seeing two hardware key-repeat key-down events for space, the poll completes
and the space edge is `none` — not re-fired as just-pressed. -/
theorem events_pump_edge_c2_witness :
    ((Events.pump (800, 600) { now := ImmediateEvents.new, level := fun _ => true }
        [SdlEvent.keyDown (some Key.key_space), SdlEvent.keyDown (some Key.key_space)]).map
      fun r => r.now.keyNow Key.key_space) = Except.ok none := by
  obtain ⟨r, hr⟩ : ∃ r,
      Events.pump (800, 600) { now := ImmediateEvents.new, level := fun _ => true }
        [SdlEvent.keyDown (some Key.key_space), SdlEvent.keyDown (some Key.key_space)] =
        Except.ok r := ⟨_, rfl⟩
  rw [hr]
  have hnone := (events_pump_edge_c2 (800, 600)
    { now := ImmediateEvents.new, level := fun _ => true }
    [SdlEvent.keyDown (some Key.key_space), SdlEvent.keyDown (some Key.key_space)]
    Key.key_space).1 rfl (by decide) r hr
  simp [Except.map, hnone]

/-- Whether the collision pass destroys an asteroid: it overlaps some bullet
of the pass's input, or it overlaps the player. -/
def asteroidDestroyed {α : Type} (rectOf : α → Rectangle) (playerRect : Rectangle)
    (bullets : List α) (a : Asteroid) : Bool :=
  (bullets.any fun v => a.rect.overlaps (rectOf v)) || a.rect.overlaps playerRect

/-- Helper: `any` over a mapped list tests the composite predicate. -/
lemma any_map_comp {α β : Type} (f : α → β) (p : β → Bool) :
    ∀ l : List α, (l.map f).any p = l.any fun x => p (f x) := by
  intro l
  induction l with
  | nil => rfl
  | cons a l ih => simp [List.any_cons, ih]

/-- Helper: marking overlapping bullets dead does not change their values. -/
lemma collisionStep_bullet_values {α : Type} (rectOf : α → Rectangle)
    (p : Rectangle) (st : CollisionState α) (a : Asteroid) :
    (collisionStep rectOf p st a).bullets.map MaybeAlive.value =
      st.bullets.map MaybeAlive.value := by
  simp only [collisionStep, List.map_map]
  refine List.map_congr_left fun b _ => ?_
  by_cases h : a.rect.overlaps (rectOf b.value) <;> simp [h]

/-- Helper: the transition bullets after the asteroid loop — a bullet is
alive iff it was alive and overlaps no asteroid of the processed list. -/
lemma collision_foldl_bullets {α : Type} (rectOf : α → Rectangle) (p : Rectangle) :
    ∀ (asts : List Asteroid) (st : CollisionState α),
      (asts.foldl (collisionStep rectOf p) st).bullets =
        st.bullets.map fun b =>
          { alive := b.alive && !(asts.any fun a => a.rect.overlaps (rectOf b.value)),
            value := b.value } := by
  intro asts
  induction asts with
  | nil =>
      intro st
      simp only [List.foldl_nil, List.any_nil, Bool.not_false, Bool.and_true]
      exact (List.map_id'' (fun b => rfl) st.bullets).symm
  | cons a rest ih =>
      intro st
      rw [List.foldl_cons, ih]
      simp only [collisionStep, List.map_map]
      refine List.map_congr_left fun b _ => ?_
      by_cases h : a.rect.overlaps (rectOf b.value) <;>
        simp [h, List.any_cons, Bool.and_assoc]

/-- Helper: the asteroid, explosion, sound and player components of the
collision fold — every asteroid of the input is retained iff it is not
destroyed, each destroyed asteroid contributes exactly one explosion
(centered on its rectangle) and one sound cue, and the player survives iff
no asteroid overlaps it. -/
lemma collision_foldl_rest {α : Type} (rectOf : α → Rectangle) (p : Rectangle) :
    ∀ (asts : List Asteroid) (st : CollisionState α),
      (asts.foldl (collisionStep rectOf p) st).asteroids =
        st.asteroids ++ asts.filter
          (fun a => !asteroidDestroyed rectOf p (st.bullets.map MaybeAlive.value) a) ∧
      (asts.foldl (collisionStep rectOf p) st).explosions =
        st.explosions ++
          (asts.filter
            (asteroidDestroyed rectOf p (st.bullets.map MaybeAlive.value))).map
            (fun a => ExplosionFactory.at_center a.rect.center) ∧
      (asts.foldl (collisionStep rectOf p) st).sounds =
        st.sounds + (asts.filter
          (asteroidDestroyed rectOf p (st.bullets.map MaybeAlive.value))).length ∧
      (asts.foldl (collisionStep rectOf p) st).playerAlive =
        (st.playerAlive && !(asts.any fun a => a.rect.overlaps p)) := by
  intro asts
  induction asts with
  | nil => intro st; simp
  | cons a rest ih =>
      intro st
      obtain ⟨ha, he, hs, hp⟩ := ih (collisionStep rectOf p st a)
      rw [collisionStep_bullet_values rectOf p st a] at ha he hs
      have hd : asteroidDestroyed rectOf p (st.bullets.map MaybeAlive.value) a
          = ((st.bullets.any fun b => a.rect.overlaps (rectOf b.value)) ||
              a.rect.overlaps p) := by
        simp only [asteroidDestroyed]
        rw [any_map_comp]
      rw [List.foldl_cons]
      refine ⟨?_, ?_, ?_, ?_⟩
      · rw [ha]
        simp only [collisionStep]
        rw [List.filter_cons, hd]
        cases hB : (st.bullets.any fun b => a.rect.overlaps (rectOf b.value)) <;>
          cases hP : a.rect.overlaps p <;> simp [List.append_assoc]
      · rw [he]
        simp only [collisionStep]
        rw [List.filter_cons, hd]
        cases hB : (st.bullets.any fun b => a.rect.overlaps (rectOf b.value)) <;>
          cases hP : a.rect.overlaps p <;> simp [List.append_assoc]
      · rw [hs]
        simp only [collisionStep]
        rw [List.filter_cons, hd]
        cases hB : (st.bullets.any fun b => a.rect.overlaps (rectOf b.value)) <;>
          cases hP : a.rect.overlaps p <;> simp <;> omega
      · rw [hp]
        simp only [collisionStep]
        rw [List.any_cons]
        cases hP : a.rect.overlaps p <;> simp

/-- Helper: `filterMap` with a guard returning the element is `filter`. -/
lemma filterMap_if_some {α : Type} (p : α → Bool) :
    ∀ l : List α, (l.filterMap fun v => if p v then some v else none) = l.filter p := by
  intro l
  induction l with
  | nil => rfl
  | cons a l ih =>
      cases h : p a <;> simp [List.filterMap_cons, List.filter_cons, h, ih]

/-- Helper: full characterization of the collision pass — surviving bullets
are exactly those overlapping no asteroid of the pass, surviving asteroids
exactly those not destroyed, and each destroyed asteroid yields exactly one
explosion (at its center) and one sound cue; the player survives iff no
asteroid overlaps it. -/
lemma collisionPass_spec {α : Type} (rectOf : α → Rectangle) (playerRect : Rectangle)
    (asteroids : List Asteroid) (bullets : List α) (explosions : List Explosion) :
    (collisionPass rectOf playerRect asteroids bullets explosions).bullets =
      bullets.filter
        (fun v => !(asteroids.any fun a => a.rect.overlaps (rectOf v))) ∧
    (collisionPass rectOf playerRect asteroids bullets explosions).asteroids =
      asteroids.filter (fun a => !asteroidDestroyed rectOf playerRect bullets a) ∧
    (collisionPass rectOf playerRect asteroids bullets explosions).explosions =
      explosions ++
        (asteroids.filter (asteroidDestroyed rectOf playerRect bullets)).map
          (fun a => ExplosionFactory.at_center a.rect.center) ∧
    (collisionPass rectOf playerRect asteroids bullets explosions).sounds =
      (asteroids.filter (asteroidDestroyed rectOf playerRect bullets)).length ∧
    (collisionPass rectOf playerRect asteroids bullets explosions).playerAlive =
      !(asteroids.any fun a => a.rect.overlaps playerRect) := by
  obtain ⟨ha, he, hs, hp⟩ := collision_foldl_rest rectOf playerRect asteroids
    { asteroids := [],
      bullets := bullets.map fun b => { alive := true, value := b },
      explosions := explosions,
      sounds := 0,
      playerAlive := true }
  have hvals : ((bullets.map fun b =>
      ({ alive := true, value := b } : MaybeAlive α)).map MaybeAlive.value) = bullets := by
    rw [List.map_map]
    exact List.map_id'' (fun _ => rfl) bullets
  rw [hvals] at ha he hs
  refine ⟨?_, ?_, ?_, ?_, ?_⟩
  · show ((asteroids.foldl (collisionStep rectOf playerRect) _).bullets).filterMap
      MaybeAlive.as_option = _
    rw [collision_foldl_bullets, List.map_map, List.filterMap_map]
    have hfn : (MaybeAlive.as_option ∘
        ((fun b : MaybeAlive α =>
          ({ alive := b.alive && !(asteroids.any fun a => a.rect.overlaps (rectOf b.value)),
             value := b.value } : MaybeAlive α)) ∘
         (fun b : α => ({ alive := true, value := b } : MaybeAlive α)))) =
        fun v : α =>
          if !(asteroids.any fun a => a.rect.overlaps (rectOf v)) then some v
          else none := by
      funext v
      simp [MaybeAlive.as_option, Function.comp]
    rw [hfn, filterMap_if_some]
  · exact ha
  · exact he
  · exact hs.trans (Nat.zero_add _)
  · exact hp

/-- **C1** (confirmed): in one collision pass, every asteroid is compared
against all bullets without short-circuiting — the surviving bullets are
exactly those overlapping *no* asteroid (so all overlapping bullets are
removed in the same pass), each destroyed asteroid spawns exactly one
explosion centered on its rectangle center and one explosion sound cue; and
in the concrete scenario of one asteroid overlapping three live bullets,
one pass removes all three bullets and spawns exactly one explosion. -/
theorem collision_pass_c1 {α : Type} (rectOf : α → Rectangle)
    (playerRect : Rectangle) (asteroids : List Asteroid) (bullets : List α)
    (explosions : List Explosion) :
    (collisionPass rectOf playerRect asteroids bullets explosions).bullets =
      bullets.filter
        (fun v => !(asteroids.any fun a => a.rect.overlaps (rectOf v))) ∧
    (collisionPass rectOf playerRect asteroids bullets explosions).asteroids =
      asteroids.filter (fun a => !asteroidDestroyed rectOf playerRect bullets a) ∧
    (collisionPass rectOf playerRect asteroids bullets explosions).explosions =
      explosions ++
        (asteroids.filter (asteroidDestroyed rectOf playerRect bullets)).map
          (fun a => ExplosionFactory.at_center a.rect.center) ∧
    (collisionPass rectOf playerRect asteroids bullets explosions).sounds =
      (asteroids.filter (asteroidDestroyed rectOf playerRect bullets)).length ∧
    ((collisionPass id { x := 0, y := 0, w := 43, h := 39 }
        [{ rect := { x := 100, y := 100, w := 96, h := 96 }, vel := 60 }]
        [{ x := 110, y := 110, w := 8, h := 4 },
         { x := 120, y := 120, w := 8, h := 4 },
         { x := 130, y := 130, w := 8, h := 4 }] []).bullets = ([] : List Rectangle) ∧
     (collisionPass id { x := 0, y := 0, w := 43, h := 39 }
        [{ rect := { x := 100, y := 100, w := 96, h := 96 }, vel := 60 }]
        [{ x := 110, y := 110, w := 8, h := 4 },
         { x := 120, y := 120, w := 8, h := 4 },
         { x := 130, y := 130, w := 8, h := 4 }] []).explosions.length = 1 ∧
     (collisionPass id { x := 0, y := 0, w := 43, h := 39 }
        [{ rect := { x := 100, y := 100, w := 96, h := 96 }, vel := 60 }]
        [{ x := 110, y := 110, w := 8, h := 4 },
         { x := 120, y := 120, w := 8, h := 4 },
         { x := 130, y := 130, w := 8, h := 4 }] []).sounds = 1) := by
  obtain ⟨hb, ha, he, hs, -⟩ :=
    collisionPass_spec rectOf playerRect asteroids bullets explosions
  refine ⟨hb, ha, he, hs, ?_, ?_, ?_⟩ <;> {
    obtain ⟨hb', ha', he', hs', -⟩ :=
      collisionPass_spec (id : Rectangle → Rectangle)
        { x := 0, y := 0, w := 43, h := 39 }
        [{ rect := { x := 100, y := 100, w := 96, h := 96 }, vel := 60 }]
        [{ x := 110, y := 110, w := 8, h := 4 },
         { x := 120, y := 120, w := 8, h := 4 },
         { x := 130, y := 130, w := 8, h := 4 }] []
    have hov1 : Rectangle.overlaps { x := 100, y := 100, w := 96, h := 96 }
        { x := 110, y := 110, w := 8, h := 4 } = true := by
      simp only [Rectangle.overlaps, Bool.and_eq_true, decide_eq_true_eq]
      norm_num
    have hov2 : Rectangle.overlaps { x := 100, y := 100, w := 96, h := 96 }
        { x := 120, y := 120, w := 8, h := 4 } = true := by
      simp only [Rectangle.overlaps, Bool.and_eq_true, decide_eq_true_eq]
      norm_num
    have hov3 : Rectangle.overlaps { x := 100, y := 100, w := 96, h := 96 }
        { x := 130, y := 130, w := 8, h := 4 } = true := by
      simp only [Rectangle.overlaps, Bool.and_eq_true, decide_eq_true_eq]
      norm_num
    have hdest : asteroidDestroyed (id : Rectangle → Rectangle)
        { x := 0, y := 0, w := 43, h := 39 }
        [{ x := 110, y := 110, w := 8, h := 4 },
         { x := 120, y := 120, w := 8, h := 4 },
         { x := 130, y := 130, w := 8, h := 4 }]
        { rect := { x := 100, y := 100, w := 96, h := 96 }, vel := 60 } = true := by
      simp [asteroidDestroyed, List.any_cons, hov1]
    first
      | (rw [hb']; simp [List.filter_cons, List.any_cons, hov1, hov2, hov3])
      | (rw [he']; simp [List.filter_cons, hdest])
      | (rw [hs']; simp [List.filter_cons, hdest]) }

/-- **C7** (confirmed): in the per-frame pipeline, bullet spawning happens
after the collision pass — the asteroid and explosion outcomes of the frame
are the same whether or not freshly spawned bullets exist (they are never
collision-tested that frame) — yet when the fire edge is set every spawned
bullet is present in the bullet list handed to `GameView::render` of that
same frame, appended after the collision survivors computed from the
pre-spawn bullets. -/
theorem game_frame_spawn_after_collision_c7 {α : Type} (rectOf : α → Rectangle)
    (updateB : α → Option α) (dt : ℚ) (spawned : List α) (spawnAst : Bool)
    (newAst : Asteroid) (s : GameState α) :
    (∀ b ∈ spawned,
      b ∈ renderedBullets (gameFrame rectOf updateB dt true spawned spawnAst newAst s)) ∧
    (gameFrame rectOf updateB dt true spawned spawnAst newAst s).asteroids =
      (gameFrame rectOf updateB dt true [] spawnAst newAst s).asteroids ∧
    (gameFrame rectOf updateB dt true spawned spawnAst newAst s).explosions =
      (gameFrame rectOf updateB dt true [] spawnAst newAst s).explosions ∧
    renderedBullets (gameFrame rectOf updateB dt true spawned spawnAst newAst s) =
      (collisionPass rectOf s.playerRect (s.asteroids.filterMap (Asteroid.update dt))
        (s.bullets.filterMap updateB)
        (s.explosions.filterMap (Explosion.update dt))).bullets ++ spawned := by
  refine ⟨?_, rfl, rfl, ?_⟩
  · intro b hb
    simp only [renderedBullets, gameFrame, if_pos]
    exact List.mem_append_right _ hb
  · simp only [renderedBullets, gameFrame, if_pos]

/-- Witness for **C7**: a concrete frame with the fire edge set — the single
spawned bullet is in the very bullet list that the same frame's render pass
traverses. -/
theorem game_frame_spawn_after_collision_c7_witness :
    ({ x := 10, y := 20, w := 8, h := 4 } : Rectangle) ∈
      renderedBullets (gameFrame (id : Rectangle → Rectangle) (fun r => some r)
        (1 / 60) true [{ x := 10, y := 20, w := 8, h := 4 }] false
        { rect := { x := 800, y := 0, w := 96, h := 96 }, vel := 60 }
        { playerRect := { x := 0, y := 0, w := 43, h := 39 },
          bullets := [], asteroids := [], explosions := [] }) :=
  (game_frame_spawn_after_collision_c7 (id : Rectangle → Rectangle) (fun r => some r)
    (1 / 60) [{ x := 10, y := 20, w := 8, h := 4 }] false
    { rect := { x := 800, y := 0, w := 96, h := 96 }, vel := 60 }
    { playerRect := { x := 0, y := 0, w := 43, h := 39 },
      bullets := [], asteroids := [], explosions := [] }).1
    { x := 10, y := 20, w := 8, h := 4 } (List.mem_singleton.mpr rfl)
